import Mathlib

/-!
Verification development for the restaurant market-analysis service
(`notebooks/app.py`).  The Flask endpoints `get_options` (GET /options) and
`predict` (POST /predict) are embedded shallowly: the pandas DataFrame becomes
a list of rows with optional (nullable / NaN-able) cells, floats become exact
rationals, and the externally loaded model becomes an explicit parameter
describing whether it is loaded and what its invocation does.
-/

namespace MarketApp

/-- A dataset row.  Each logical field is optional: `none` models a missing
cell (pandas `NaN`). -/
structure Row where
  location : Option String
  cuisine : Option String
  price : Option ℚ
  rating : Option ℚ
  name : Option String
deriving DecidableEq

/-- The in-memory dataset: the physical column names of the loaded CSV plus
the row contents.  A logical field of a row is meaningful only when the
corresponding column resolves against `cols`. -/
structure Dataset where
  cols : List String
  rows : List Row
deriving DecidableEq

/-- Ordered alias list for the location column. -/
def locationAliases : List String := ["Location", "location", "LOCATION"]

/-- Ordered alias list for the cuisine column. -/
def cuisineAliases : List String :=
  ["Cuisines", "cuisines", "CUISINES", "Cuisine", "cuisine"]

/-- Ordered alias list for the price column. -/
def priceAliases : List String :=
  ["Price_for_one", "price_for_one", "Price", "price"]

/-- Ordered alias list for the rating column. -/
def ratingAliases : List String := ["Rating", "rating", "RATING"]

/-- Ordered alias list for the name column. -/
def nameAliases : List String :=
  ["Name", "name", "NAME", "Restaurant_Name", "restaurant_name"]

/-- First alias present among the dataset's columns (the `for col in [...]`
loops of `app.py`), or `none` when no alias matches. -/
def resolveCol (aliases cols : List String) : Option String :=
  aliases.find? (fun a => decide (a ∈ cols))

/-- Code point of a character with ASCII upper case folded to lower case. -/
def lcVal (c : Char) : ℕ :=
  if 65 ≤ c.toNat ∧ c.toNat ≤ 90 then c.toNat + 32 else c.toNat

/-- Case-insensitive containment test: `pat` occurs inside `hay` after
lowercasing both.  Embeds `Series.str.contains(pat, case=False)` for literal
(regex-metacharacter-free) patterns. -/
def strContainsCI (hay pat : String) : Bool :=
  let h := hay.data.map lcVal
  let p := pat.data.map lcVal
  (List.range (h.length + 1)).any (fun i => p.isPrefixOf (h.drop i))

/-- Whitespace characters stripped by Python `str.strip()`. -/
def isWS (c : Char) : Bool :=
  c = ' ' || c = '\t' || c = '\n' || c = '\r'

/-- Drop leading and trailing whitespace from a character list. -/
def trimChars (l : List Char) : List Char :=
  ((l.dropWhile isWS).reverse.dropWhile isWS).reverse

/-- Python `str.strip()`. -/
def pyStrip (s : String) : String := ⟨trimChars s.data⟩

/-- Split a character list on commas; like Python `split(',')`, the empty
list yields one empty piece and adjacent commas yield empty pieces. -/
def splitCommaChars : List Char → List (List Char)
  | [] => [[]]
  | c :: cs =>
    let r := splitCommaChars cs
    if c = ',' then [] :: r
    else
      match r with
      | [] => [[c]]
      | h :: t => (c :: h) :: t

/-- Python `s.split(',')`. -/
def splitComma (s : String) : List String :=
  (splitCommaChars s.data).map (fun l => ⟨l⟩)

/-- Round a rational to an integer, ties to even — Python 3 `round`. -/
def roundHalfEven (q : ℚ) : ℤ :=
  let f : ℤ := ⌊q⌋
  let r : ℚ := q - f
  if r < 1/2 then f
  else if r > 1/2 then f + 1
  else if f % 2 = 0 then f else f + 1

/-- Python `round(x, 2)` on an exact rational. -/
def round2 (q : ℚ) : ℚ := (roundHalfEven (q * 100) : ℚ) / 100

/-- Tokens contributed by one raw cuisine cell: split on commas, trim each
piece, drop empty pieces (the inner loop of `get_options`). -/
def cuisineTokens (s : String) : List String :=
  ((splitComma s).map pyStrip).filter (fun t => t ≠ "")

/-- All cuisine tokens of the non-missing cuisine cells, in row order. -/
def allCuisines (rows : List Row) : List String :=
  (rows.filterMap (fun r => r.cuisine)).flatMap cuisineTokens

/-- Ascending (code-point lexicographic) sort, Python `sorted` on strings. -/
def sortStr (l : List String) : List String :=
  l.insertionSort (fun a b => a ≤ b)

/-- Result body of GET /options. -/
structure OptionsResult where
  locations : List String
  cuisines : List String
  total_records : ℕ
deriving DecidableEq

/-- Error classes surfaced by the two endpoints. -/
inductive EstErr where
  /-- 400: missing location or cuisine in the request body. -/
  | missingInput
  /-- 500: the dataset is empty. -/
  | noData
  /-- 500: required columns not found in dataset. -/
  | schemaError
  /-- 404: no data found for the requested location. -/
  | notFound
deriving DecidableEq

/-- The locations list of GET /options: non-missing values that are not
whitespace-only (the values themselves are kept untrimmed, exactly as the
list comprehension keeps `loc`), deduplicated and sorted; empty when no
location column resolves. -/
def optLocations (ds : Dataset) : List String :=
  match resolveCol locationAliases ds.cols with
  | none => []
  | some _ =>
    sortStr (((ds.rows.filterMap (fun r => r.location)).dedup).filter
      (fun s => pyStrip s ≠ ""))

/-- The cuisines list of GET /options: comma-split trimmed tokens of all
non-missing cuisine cells, accumulated into a set and sorted; empty when no
cuisine column resolves. -/
def optCuisines (ds : Dataset) : List String :=
  match resolveCol cuisineAliases ds.cols with
  | none => []
  | some _ => sortStr (allCuisines ds.rows).dedup

/-- GET /options, `get_options` of `app.py`. -/
def get_options (ds : Dataset) : Except EstErr OptionsResult :=
  if ds.rows = [] then .error .noData
  else
    .ok { locations := optLocations ds, cuisines := optCuisines ds,
          total_records := ds.rows.length }

/-- POST /predict request body; a missing price defaults to 0 upstream. -/
structure EstReq where
  location : String
  cuisine : String
  price : ℚ
deriving DecidableEq

/-- Response body of POST /predict.  `none` in an `Option` field models a
`NaN` propagated into the JSON.  `suggested_pre` is the Python local
`suggested_price` before the final `round(_, 2)`. -/
structure EstResult where
  average_price : Option ℚ
  popular_cuisine : String
  popular_restaurant : Option String
  popular_restaurant_cuisine : Option String
  suggested_pre : Option ℚ
  suggested_price : Option ℚ
deriving DecidableEq

/-- Outcome of the predictive model for this request: `none` when the model
artifact failed to load (`model_data is None`), `some (.error ())` when the
invocation raises, `some (.ok p)` when it returns point estimate `p`. -/
def ModelRes : Type := Option (Except Unit ℚ)

/-- Rows whose location cell matches the request location case-insensitively
(`df[location_col].str.contains(location, case=False, na=False)`). -/
def dfLocation (ds : Dataset) (req : EstReq) : List Row :=
  ds.rows.filter (fun r =>
    match r.location with
    | some s => strContainsCI s req.location
    | none => false)

/-- Location-filtered rows whose cuisine cell matches the request cuisine
case-insensitively (`na=False`). -/
def dfCuisineSub (ds : Dataset) (req : EstReq) : List Row :=
  (dfLocation ds req).filter (fun r =>
    match r.cuisine with
    | some s => strContainsCI s req.cuisine
    | none => false)

/-- Arithmetic mean of the non-missing price cells; `none` models the `NaN`
that `Series.mean()` returns when every value is missing. -/
def averageOf (rows : List Row) : Option ℚ :=
  let vals := rows.filterMap (fun r => r.price)
  if vals = [] then none else some (vals.sum / (vals.length : ℚ))

/-- Highest count any value attains in `l` (0 on the empty list). -/
def maxCount (l : List String) : ℕ :=
  (l.map (fun v => l.count v)).foldr max 0

/-- Embeds `Series.mode()[0]` over the non-missing values `l`: pandas returns
the maximal-frequency values in ascending order, so `[0]` is the
lexicographically smallest one; `none` when `l` is empty. -/
def modeList (l : List String) : Option String :=
  (sortStr (l.dedup.filter (fun v => l.count v = maxCount l))).head?

/-- Embeds `Series.idxmax` row lookup: first row (in order) whose rating is
non-missing and maximal, together with that rating; `none` when every rating
is missing. -/
def idxmaxRow : List Row → Option (Row × ℚ)
  | [] => none
  | r :: rs =>
    match r.rating, idxmaxRow rs with
    | none, res => res
    | some v, none => some (r, v)
    | some v, some (br, bv) => if bv > v then some (br, bv) else some (r, v)

/-- The successful branch of `predict`: statistics over the location-filtered
subset, then the suggested price from the model outcome.  Reached only after
all guards in `predictEndpoint` pass. -/
def estimateOk (ds : Dataset) (model : ModelRes) (req : EstReq) : EstResult :=
  let ratCol := resolveCol ratingAliases ds.cols
  let namCol := resolveCol nameAliases ds.cols
  let dfLoc := dfLocation ds req
  let popularCuisine :=
    (modeList (dfLoc.filterMap (fun r => r.cuisine))).getD "Not Available"
  let averagePrice := averageOf dfLoc
  let popRest : Option String :=
    match ratCol, namCol, idxmaxRow dfLoc with
    | some _, some _, some rv => rv.1.name
    | _, _, _ => some "Not Available"
  let popRestCui : Option String :=
    match ratCol, namCol, idxmaxRow (dfCuisineSub ds req) with
    | some _, some _, some rv => rv.1.name
    | _, _, _ => some "Not Found"
  let suggestedPre : Option ℚ :=
    match model with
    | none => some req.price
    | some (Except.ok p) =>
      some (if req.price ≥ p then p else min (req.price * (11/10)) p)
    | some (Except.error _) =>
      match averagePrice with
      | none => none
      | some a => if a = 0 then some req.price else some a
  { average_price :=
      match averagePrice with
      | none => none
      | some a => if a = 0 then some 0 else some (round2 a)
    popular_cuisine := popularCuisine
    popular_restaurant := popRest
    popular_restaurant_cuisine := popRestCui
    suggested_pre := suggestedPre
    suggested_price := suggestedPre.map round2 }

/-- POST /predict, `predict` of `app.py`: input guard, empty-data guard,
column resolution guard, location filter guard, then the statistics and
price suggestion. -/
def predictEndpoint (ds : Dataset) (model : ModelRes) (req : EstReq) :
    Except EstErr EstResult :=
  if req.location = "" then .error .missingInput
  else if req.cuisine = "" then .error .missingInput
  else if ds.rows = [] then .error .noData
  else if (resolveCol locationAliases ds.cols).isNone ∨
      (resolveCol cuisineAliases ds.cols).isNone ∨
      (resolveCol priceAliases ds.cols).isNone then .error .schemaError
  else if dfLocation ds req = [] then .error .notFound
  else .ok (estimateOk ds model req)

/-- Decidable equality of `Except` results, for evaluating the endpoints on
concrete data. -/
instance instDecEqExcept {ε α : Type} [DecidableEq ε] [DecidableEq α] :
    DecidableEq (Except ε α) := fun a b =>
  match a, b with
  | .ok x, .ok y =>
    if h : x = y then isTrue (congrArg Except.ok h)
    else isFalse (fun hc => h (Except.ok.inj hc))
  | .ok _, .error _ => isFalse (fun hc => Except.noConfusion hc)
  | .error _, .ok _ => isFalse (fun hc => Except.noConfusion hc)
  | .error x, .error y =>
    if h : x = y then isTrue (congrArg Except.error h)
    else isFalse (fun hc => h (Except.error.inj hc))

/-- Whether an endpoint call surfaced success (a 200 response). -/
def isOkB : Except EstErr EstResult → Bool
  | .ok _ => true
  | .error _ => false

/-- Dataset with the required columns whose single row has a missing price
cell, so the mean over the filtered subset is `NaN`. -/
def dsNaN : Dataset :=
  ⟨["Location", "Cuisines", "Price_for_one"],
   [⟨some "A", some "X", none, none, none⟩]⟩

/-- Request matching the single row of `dsNaN`. -/
def reqNaN : EstReq := ⟨"A", "X", 7⟩

/-- Dataset lacking any price-column alias (location and cuisine resolve). -/
def dsNoPrice : Dataset :=
  ⟨["Location", "Cuisines"], [⟨some "A", some "X", none, none, none⟩]⟩

/-- Single-row dataset whose location value carries surrounding spaces. -/
def dsTrim : Dataset :=
  ⟨["Location"], [⟨some " A ", none, none, none, none⟩]⟩

/-- Two-row dataset for the cuisine-set invariance checks. -/
def ds8a : Dataset :=
  ⟨["Cuisines"],
   [⟨some "L", some "Italian, Thai", none, none, none⟩,
    ⟨some "L", some "Mexican", none, none, none⟩]⟩

/-- The rows of `ds8a` reordered and partially duplicated. -/
def ds8b : Dataset :=
  ⟨["Cuisines"],
   [⟨some "L", some "Mexican", none, none, none⟩,
    ⟨some "L", some "Italian, Thai", none, none, none⟩,
    ⟨some "L", some "Mexican", none, none, none⟩]⟩

/-- The spec's worked example dataset: three Downtown rows with prices
10, 20, 30, ratings 2, 5, 3, names A, B, C and raw cuisine cells
"Italian", "Italian,Mexican", "Thai". -/
def ds9 : Dataset :=
  ⟨["Location", "Cuisines", "Price_for_one", "Rating", "Name"],
   [⟨some "Downtown", some "Italian", some 10, some 2, some "A"⟩,
    ⟨some "Downtown", some "Italian,Mexican", some 20, some 5, some "B"⟩,
    ⟨some "Downtown", some "Thai", some 30, some 3, some "C"⟩]⟩

/-- The spec's worked example request. -/
def req9 : EstReq := ⟨"Downtown", "Italian", 15⟩

end MarketApp

namespace MarketApp

/-- Inversion of a successful POST /predict: every guard was passed and the
result is the successful branch. -/
theorem predict_ok_inv {ds : Dataset} {model : ModelRes} {req : EstReq}
    {res : EstResult} (h : predictEndpoint ds model req = Except.ok res) :
    req.location ≠ "" ∧ req.cuisine ≠ "" ∧ ds.rows ≠ [] ∧
    ¬((resolveCol locationAliases ds.cols).isNone ∨
      (resolveCol cuisineAliases ds.cols).isNone ∨
      (resolveCol priceAliases ds.cols).isNone) ∧
    dfLocation ds req ≠ [] ∧ res = estimateOk ds model req := by
  unfold predictEndpoint at h
  split_ifs at h with h1 h2 h3 h4 h5
  exact ⟨h1, h2, h3, h4, h5, (Except.ok.inj h).symm⟩

/-- When every guard passes, POST /predict returns the successful branch. -/
theorem predict_ok_of {ds : Dataset} {model : ModelRes} {req : EstReq}
    (h1 : req.location ≠ "") (h2 : req.cuisine ≠ "") (h3 : ds.rows ≠ [])
    (h4 : ¬((resolveCol locationAliases ds.cols).isNone ∨
      (resolveCol cuisineAliases ds.cols).isNone ∨
      (resolveCol priceAliases ds.cols).isNone))
    (h5 : dfLocation ds req ≠ []) :
    predictEndpoint ds model req = Except.ok (estimateOk ds model req) := by
  unfold predictEndpoint
  rw [if_neg h1, if_neg h2, if_neg h3, if_neg h4, if_neg h5]

/-- Unfolded form of the pre-rounding suggested price. -/
theorem estimateOk_suggested_pre (ds : Dataset) (model : ModelRes)
    (req : EstReq) :
    (estimateOk ds model req).suggested_pre =
      match model with
      | none => some req.price
      | some (Except.ok p) =>
        some (if req.price ≥ p then p else min (req.price * (11/10)) p)
      | some (Except.error _) =>
        match averageOf (dfLocation ds req) with
        | none => none
        | some a => if a = 0 then some req.price else some a := rfl

/-- Unfolded form of the rounded average price in the response. -/
theorem estimateOk_average (ds : Dataset) (model : ModelRes) (req : EstReq) :
    (estimateOk ds model req).average_price =
      match averageOf (dfLocation ds req) with
      | none => none
      | some a => if a = 0 then some 0 else some (round2 a) := rfl

/-- Unfolded form of the most popular restaurant for the cuisine. -/
theorem estimateOk_popRestCui (ds : Dataset) (model : ModelRes)
    (req : EstReq) :
    (estimateOk ds model req).popular_restaurant_cuisine =
      match resolveCol ratingAliases ds.cols, resolveCol nameAliases ds.cols,
          idxmaxRow (dfCuisineSub ds req) with
      | some _, some _, some rv => rv.1.name
      | _, _, _ => some "Not Found" := rfl

/-- Unfolded form of the most popular restaurant overall. -/
theorem estimateOk_popRest (ds : Dataset) (model : ModelRes) (req : EstReq) :
    (estimateOk ds model req).popular_restaurant =
      match resolveCol ratingAliases ds.cols, resolveCol nameAliases ds.cols,
          idxmaxRow (dfLocation ds req) with
      | some _, some _, some rv => rv.1.name
      | _, _, _ => some "Not Available" := rfl

/-- Unfolded form of the most popular cuisine. -/
theorem estimateOk_popular_cuisine (ds : Dataset) (model : ModelRes)
    (req : EstReq) :
    (estimateOk ds model req).popular_cuisine =
      (modeList ((dfLocation ds req).filterMap (fun r => r.cuisine))).getD
        "Not Available" := rfl

/-- Claim C1: when the model is loaded and its invocation succeeds with point
estimate `p`, the pre-rounding suggested price is `p` itself if the request's
price is at least `p`, and `min(price * 1.1, p)` otherwise. -/
theorem C1_blend_rule {ds : Dataset} {req : EstReq} {p : ℚ} {res : EstResult}
    (h : predictEndpoint ds (some (Except.ok p)) req = Except.ok res) :
    res.suggested_pre =
      some (if req.price ≥ p then p else min (req.price * (11/10)) p) := by
  obtain ⟨-, -, -, -, -, hres⟩ := predict_ok_inv h
  rw [hres, estimateOk_suggested_pre]

/-- The successful branch result for the example dataset with a succeeding
model returning 10. -/
def res9ok : EstResult := estimateOk ds9 (some (Except.ok 10)) req9

/-- Witness for C1: on the example dataset with point estimate 10 and request
price 15 ≥ 10, the pre-rounding suggested price is exactly 10. -/
theorem C1_blend_rule_witness : res9ok.suggested_pre = some (10 : ℚ) := by
  have h : predictEndpoint ds9 (some (Except.ok 10)) req9 =
      Except.ok res9ok := by with_unfolding_all decide
  rw [C1_blend_rule h]
  with_unfolding_all decide

/-- Claim C3: with a non-empty dataset that has the required columns, a
request whose location filter is empty fails with the not-found error, for
every possible model outcome (so the model is never consulted and no
statistics are reachable). -/
theorem C3_notFound_no_model {ds : Dataset} {req : EstReq}
    (h1 : req.location ≠ "") (h2 : req.cuisine ≠ "") (h3 : ds.rows ≠ [])
    (h4 : (resolveCol locationAliases ds.cols).isSome = true)
    (h5 : (resolveCol cuisineAliases ds.cols).isSome = true)
    (h6 : (resolveCol priceAliases ds.cols).isSome = true)
    (hempty : dfLocation ds req = []) :
    ∀ model : ModelRes,
      predictEndpoint ds model req = Except.error EstErr.notFound := by
  intro model
  have hno : ¬((resolveCol locationAliases ds.cols).isNone ∨
      (resolveCol cuisineAliases ds.cols).isNone ∨
      (resolveCol priceAliases ds.cols).isNone) := by
    rintro (hc | hc | hc) <;>
      simp only [Option.isNone_iff_eq_none] at hc <;>
      simp [hc] at h4 h5 h6
  unfold predictEndpoint
  rw [if_neg h1, if_neg h2, if_neg h3, if_neg hno, if_pos hempty]

/-- Witness for C3: the example dataset has no row matching "Nowhere", so the
request fails with not-found whatever the model would do. -/
theorem C3_notFound_no_model_witness :
    predictEndpoint ds9 (some (Except.ok 5)) ⟨"Nowhere", "Italian", 5⟩ =
      Except.error EstErr.notFound :=
  C3_notFound_no_model (by decide) (by decide)
    (by with_unfolding_all decide) (by decide) (by decide) (by decide)
    (by with_unfolding_all decide) (some (Except.ok 5))

/-- Claim C9: on the spec's worked example (three Downtown rows, prices
10/20/30, ratings 2/5/3, names A/B/C, cuisines "Italian",
"Italian,Mexican", "Thai") the request (Downtown, Italian, 15) yields
average price 20, popular cuisine "Italian", popular restaurant "B" and
popular restaurant for the cuisine "B", for every model outcome. -/
theorem C9_worked_example (model : ModelRes) :
    (predictEndpoint ds9 model req9).map (fun r =>
      (r.average_price, r.popular_cuisine, r.popular_restaurant,
        r.popular_restaurant_cuisine)) =
      Except.ok (some 20, "Italian", some "B", some "B") := by
  rw [predict_ok_of (by decide) (by decide) (by with_unfolding_all decide)
    (by decide) (by with_unfolding_all decide)]
  have ha : (estimateOk ds9 model req9).average_price = some 20 := by
    rw [estimateOk_average]; with_unfolding_all decide
  have hc : (estimateOk ds9 model req9).popular_cuisine = "Italian" := by
    rw [estimateOk_popular_cuisine]; with_unfolding_all decide
  have hr : (estimateOk ds9 model req9).popular_restaurant = some "B" := by
    rw [estimateOk_popRest]; with_unfolding_all decide
  have hrc : (estimateOk ds9 model req9).popular_restaurant_cuisine =
      some "B" := by
    rw [estimateOk_popRestCui]; with_unfolding_all decide
  simp [Except.map, ha, hc, hr, hrc]

end MarketApp

namespace MarketApp

/-- Rounding zero yields zero. -/
theorem round2_zero : round2 0 = 0 := by with_unfolding_all decide

/-- Witness for C9: the worked example instantiated at the not-loaded model
outcome. -/
theorem C9_worked_example_witness :
    (predictEndpoint ds9 none req9).map (fun r =>
      (r.average_price, r.popular_cuisine, r.popular_restaurant,
        r.popular_restaurant_cuisine)) =
      Except.ok (some 20, "Italian", some "B", some "B") :=
  C9_worked_example none

/-- Claim C2 fails on the code: when the model artifact is not loaded
(`model_data is None`), the suggested price stays at the input price — the
average-price fallback only runs in the exception handler.  On the worked
example (average 20, input 15) the code returns 15, not 20. -/
theorem C2_counterexample :
    (predictEndpoint ds9 none req9).map (fun r => r.suggested_pre) =
      Except.ok (some (15 : ℚ)) ∧
    averageOf (dfLocation ds9 req9) = some 20 ∧
    (some (15 : ℚ)) ≠ some (20 : ℚ) := by
  refine ⟨?_, ?_, ?_⟩ <;> with_unfolding_all decide

/-- Claim C2 amended: a missing model or a raising model invocation still
returns success.  When the model is not loaded the suggested price is the
input price; when the invocation raises it falls back to the average price
unless that average is exactly zero (then the input price) — a `NaN` average
(no non-missing prices) is truthy in Python and propagates as the
fallback. -/
theorem C2_amended_fallback (ds : Dataset) (req : EstReq) :
    (∀ res, predictEndpoint ds none req = Except.ok res →
      res.suggested_pre = some req.price) ∧
    (∀ res, predictEndpoint ds (some (Except.error ())) req = Except.ok res →
      res.suggested_pre =
        match averageOf (dfLocation ds req) with
        | none => none
        | some a => if a = 0 then some req.price else some a) ∧
    (∀ m₁ m₂ : ModelRes,
      isOkB (predictEndpoint ds m₁ req) = isOkB (predictEndpoint ds m₂ req)) := by
  refine ⟨?_, ?_, ?_⟩
  · intro res h
    obtain ⟨-, -, -, -, -, hres⟩ := predict_ok_inv h
    rw [hres, estimateOk_suggested_pre]
  · intro res h
    obtain ⟨-, -, -, -, -, hres⟩ := predict_ok_inv h
    rw [hres, estimateOk_suggested_pre]
  · intro m₁ m₂
    unfold predictEndpoint
    split_ifs <;> rfl

/-- Witness for the amended C2 on the worked example: not-loaded keeps the
input price 15; a raising invocation falls back to the average 20. -/
theorem C2_amended_fallback_witness :
    (estimateOk ds9 none req9).suggested_pre = some (15 : ℚ) ∧
    (estimateOk ds9 (some (Except.error ())) req9).suggested_pre =
      some (20 : ℚ) := by
  have h1 := (C2_amended_fallback ds9 req9).1 (estimateOk ds9 none req9)
    (by with_unfolding_all decide)
  have h2 := (C2_amended_fallback ds9 req9).2.1
    (estimateOk ds9 (some (Except.error ())) req9)
    (by with_unfolding_all decide)
  exact ⟨h1, h2.trans (by with_unfolding_all decide)⟩

/-- Claim C4 fails on the code: when the filtered subset has no non-missing
price, `average_price` is `NaN` — truthy in Python — so the response carries
`round(NaN, 2) = NaN`, not 0. -/
theorem C4_counterexample :
    (dfLocation dsNaN reqNaN).filterMap (fun r => r.price) = [] ∧
    (predictEndpoint dsNaN none reqNaN).map (fun r => r.average_price) =
      Except.ok none ∧
    (none : Option ℚ) ≠ some 0 := by
  refine ⟨?_, ?_, ?_⟩
  · decide
  · with_unfolding_all decide
  · decide

/-- Claim C4 amended: on success the returned average is the mean of the
non-missing prices of the filtered subset rounded to 2 decimals when at
least one such price exists, and the propagated missing value (`NaN`), not 0,
when none exists. -/
theorem C4_amended_average {ds : Dataset} {model : ModelRes} {req : EstReq}
    {res : EstResult} (h : predictEndpoint ds model req = Except.ok res) :
    res.average_price = (averageOf (dfLocation ds req)).map round2 := by
  obtain ⟨-, -, -, -, -, hres⟩ := predict_ok_inv h
  rw [hres, estimateOk_average]
  cases havg : averageOf (dfLocation ds req) with
  | none => rfl
  | some a =>
    show (if a = 0 then some 0 else some (round2 a)) = some (round2 a)
    by_cases ha : a = 0
    · rw [if_pos ha, ha, round2_zero]
    · rw [if_neg ha]

/-- Witness for the amended C4 on the worked example: the average 20 rounds
to itself. -/
theorem C4_amended_average_witness :
    (estimateOk ds9 none req9).average_price = some (20 : ℚ) :=
  (C4_amended_average
    (by with_unfolding_all decide :
      predictEndpoint ds9 none req9 = Except.ok (estimateOk ds9 none req9))).trans
    (by with_unfolding_all decide)

/-- Claim C5: on a non-empty dataset, the call fails with the schema error
when a location, cuisine or price column is unresolvable, while a missing
rating or name column alone never fails the call — it succeeds (given a
non-empty location filter) with the overall popular restaurant degraded to
"Not Available". -/
theorem C5_schema_requirements (ds : Dataset) (model : ModelRes)
    (req : EstReq) (h1 : req.location ≠ "") (h2 : req.cuisine ≠ "")
    (h3 : ds.rows ≠ []) :
    ((resolveCol locationAliases ds.cols = none ∨
      resolveCol cuisineAliases ds.cols = none ∨
      resolveCol priceAliases ds.cols = none) →
      predictEndpoint ds model req = Except.error EstErr.schemaError) ∧
    ((resolveCol locationAliases ds.cols).isSome = true →
      (resolveCol cuisineAliases ds.cols).isSome = true →
      (resolveCol priceAliases ds.cols).isSome = true →
      (resolveCol ratingAliases ds.cols = none ∨
        resolveCol nameAliases ds.cols = none) →
      dfLocation ds req ≠ [] →
      predictEndpoint ds model req = Except.ok (estimateOk ds model req) ∧
      (estimateOk ds model req).popular_restaurant = some "Not Available") := by
  constructor
  · intro hc
    have hb : (resolveCol locationAliases ds.cols).isNone ∨
        (resolveCol cuisineAliases ds.cols).isNone ∨
        (resolveCol priceAliases ds.cols).isNone := by
      rcases hc with hc | hc | hc <;>
        simp [Option.isNone_iff_eq_none, hc]
    unfold predictEndpoint
    rw [if_neg h1, if_neg h2, if_neg h3, if_pos hb]
  · intro h4 h5 h6 h7 h8
    have hno : ¬((resolveCol locationAliases ds.cols).isNone ∨
        (resolveCol cuisineAliases ds.cols).isNone ∨
        (resolveCol priceAliases ds.cols).isNone) := by
      rintro (hc | hc | hc) <;>
        simp only [Option.isNone_iff_eq_none] at hc <;>
        simp [hc] at h4 h5 h6
    refine ⟨predict_ok_of h1 h2 h3 hno h8, ?_⟩
    rcases h7 with hx | hx
    · rw [estimateOk_popRest, hx]
    · rw [estimateOk_popRest, hx]
      cases resolveCol ratingAliases ds.cols <;> rfl

/-- Witness for C5: a dataset without a price column fails with the schema
error, and `dsNaN` (no rating/name columns) succeeds with the popular
restaurant "Not Available". -/
theorem C5_schema_requirements_witness :
    predictEndpoint dsNoPrice none reqNaN = Except.error EstErr.schemaError ∧
    (estimateOk dsNaN none reqNaN).popular_restaurant =
      some "Not Available" := by
  refine ⟨(C5_schema_requirements dsNoPrice none reqNaN (by decide)
    (by decide) (by with_unfolding_all decide)).1 (by decide), ?_⟩
  exact ((C5_schema_requirements dsNaN none reqNaN (by decide) (by decide)
    (by with_unfolding_all decide)).2 (by decide) (by decide) (by decide)
    (Or.inl (by decide)) (by with_unfolding_all decide)).2

/-- The idxmax lookup is empty exactly when every rating is missing. -/
theorem idxmax_eq_none_iff (rows : List Row) :
    idxmaxRow rows = none ↔ ∀ r ∈ rows, r.rating = none := by
  induction rows with
  | nil => simp [idxmaxRow]
  | cons r rs ih =>
    cases hr : r.rating with
    | none =>
      simp only [idxmaxRow, hr]
      simp [List.forall_mem_cons, hr, ih]
    | some v =>
      cases hrs : idxmaxRow rs with
      | none => simp [idxmaxRow, hr, hrs, List.forall_mem_cons]
      | some bw =>
        obtain ⟨br, bv⟩ := bw
        simp only [idxmaxRow, hr, hrs, List.forall_mem_cons]
        split <;> simp [hr]

/-- Characterisation of the idxmax lookup: it returns a row with a
non-missing rating that is maximal among the rows, and it is the first such
row — every earlier row has a strictly smaller or missing rating. -/
theorem idxmax_some_spec :
    ∀ (rows : List Row) (r : Row) (v : ℚ), idxmaxRow rows = some (r, v) →
      r.rating = some v ∧
      (∃ l1 l2, rows = l1 ++ r :: l2 ∧
        ∀ r' ∈ l1, ∀ v', r'.rating = some v' → v' < v) ∧
      (∀ r' ∈ rows, ∀ v', r'.rating = some v' → v' ≤ v) := by
  intro rows
  induction rows with
  | nil => intro r v h; exact absurd h (by simp [idxmaxRow])
  | cons a rs ih =>
    intro r v h
    cases ha : a.rating with
    | none =>
      simp only [idxmaxRow, ha] at h
      obtain ⟨h1, ⟨l1, l2, hdec, hlt⟩, hle⟩ := ih r v h
      refine ⟨h1, ⟨a :: l1, l2, by rw [hdec]; rfl, ?_⟩, ?_⟩
      · intro r' hr' v' hv'
        rcases List.mem_cons.mp hr' with rfl | hr'
        · rw [ha] at hv'; exact Option.noConfusion hv'
        · exact hlt r' hr' v' hv'
      · intro r' hr' v' hv'
        rcases List.mem_cons.mp hr' with rfl | hr'
        · rw [ha] at hv'; exact Option.noConfusion hv'
        · exact hle r' hr' v' hv'
    | some w =>
      cases hrs : idxmaxRow rs with
      | none =>
        simp only [idxmaxRow, ha, hrs] at h
        injection h with hp
        injection hp with hp1 hp2
        subst hp1; subst hp2
        refine ⟨ha, ⟨[], rs, rfl, by simp⟩, ?_⟩
        intro r' hr' v' hv'
        rcases List.mem_cons.mp hr' with rfl | hr'
        · rw [ha] at hv'
          exact (Option.some.inj hv').ge
        · rw [(idxmax_eq_none_iff rs).mp hrs r' hr'] at hv'
          exact Option.noConfusion hv'
      | some bw =>
        obtain ⟨br, bv⟩ := bw
        simp only [idxmaxRow, ha, hrs] at h
        by_cases hgt : bv > w
        · rw [if_pos hgt] at h
          injection h with hp
          injection hp with hp1 hp2
          subst hp1; subst hp2
          obtain ⟨h1, ⟨l1, l2, hdec, hlt⟩, hle⟩ := ih br bv hrs
          refine ⟨h1, ⟨a :: l1, l2, by rw [hdec]; rfl, ?_⟩, ?_⟩
          · intro r' hr' v' hv'
            rcases List.mem_cons.mp hr' with rfl | hr'
            · rw [ha] at hv'
              rw [← Option.some.inj hv']
              exact hgt
            · exact hlt r' hr' v' hv'
          · intro r' hr' v' hv'
            rcases List.mem_cons.mp hr' with rfl | hr'
            · rw [ha] at hv'
              rw [← Option.some.inj hv']
              exact le_of_lt hgt
            · exact hle r' hr' v' hv'
        · rw [if_neg hgt] at h
          injection h with hp
          injection hp with hp1 hp2
          subst hp1; subst hp2
          obtain ⟨-, -, hle⟩ := ih br bv hrs
          refine ⟨ha, ⟨[], rs, rfl, by simp⟩, ?_⟩
          intro r' hr' v' hv'
          rcases List.mem_cons.mp hr' with rfl | hr'
          · rw [ha] at hv'
            exact (Option.some.inj hv').ge
          · exact le_trans (hle r' hr' v' hv') (le_of_not_lt hgt)

/-- Claim C6: on success, the popular restaurant for the requested cuisine
is the "Not Found" sentinel (distinct from "Not Available") whenever the
cuisine sub-subset is empty, or the rating or name column is unresolvable,
or every rating in the sub-subset is missing; otherwise it is the name field
of the first maximal-rating row of the sub-subset. -/
theorem C6_popular_restaurant_cuisine {ds : Dataset} {model : ModelRes}
    {req : EstReq} {res : EstResult}
    (h : predictEndpoint ds model req = Except.ok res) :
    ("Not Found" ≠ "Not Available") ∧
    ((dfCuisineSub ds req = [] ∨
      resolveCol ratingAliases ds.cols = none ∨
      resolveCol nameAliases ds.cols = none ∨
      (∀ r ∈ dfCuisineSub ds req, r.rating = none)) →
      res.popular_restaurant_cuisine = some "Not Found") ∧
    (∀ rc nc, resolveCol ratingAliases ds.cols = some rc →
      resolveCol nameAliases ds.cols = some nc →
      ¬(∀ r ∈ dfCuisineSub ds req, r.rating = none) →
      ∃ rbest v l1 l2,
        res.popular_restaurant_cuisine = rbest.name ∧
        rbest.rating = some v ∧
        dfCuisineSub ds req = l1 ++ rbest :: l2 ∧
        (∀ r' ∈ l1, ∀ v', r'.rating = some v' → v' < v) ∧
        (∀ r' ∈ dfCuisineSub ds req, ∀ v', r'.rating = some v' → v' ≤ v)) := by
  obtain ⟨-, -, -, -, -, hres⟩ := predict_ok_inv h
  refine ⟨by decide, ?_, ?_⟩
  · intro hcond
    rw [hres, estimateOk_popRestCui]
    rcases hcond with hc | hc | hc | hc
    · rw [hc]
      cases resolveCol ratingAliases ds.cols <;>
        cases resolveCol nameAliases ds.cols <;> rfl
    · rw [hc]
    · rw [hc]
      cases resolveCol ratingAliases ds.cols <;> rfl
    · rw [(idxmax_eq_none_iff _).mpr hc]
      cases resolveCol ratingAliases ds.cols <;>
        cases resolveCol nameAliases ds.cols <;> rfl
  · intro rc nc hrc hnc hnall
    have hne : idxmaxRow (dfCuisineSub ds req) ≠ none := fun hn =>
      hnall ((idxmax_eq_none_iff _).mp hn)
    obtain ⟨⟨rbest, v⟩, hsome⟩ := Option.ne_none_iff_exists'.mp hne
    obtain ⟨h1, ⟨l1, l2, hdec, hlt⟩, hle⟩ := idxmax_some_spec _ rbest v hsome
    refine ⟨rbest, v, l1, l2, ?_, h1, hdec, hlt, hle⟩
    rw [hres, estimateOk_popRestCui, hrc, hnc, hsome]

/-- Witness for C6: `dsNaN` has no rating column, so the cuisine-specific
popular restaurant is the "Not Found" sentinel. -/
theorem C6_popular_restaurant_cuisine_witness :
    (estimateOk dsNaN none reqNaN).popular_restaurant_cuisine =
      some "Not Found" :=
  (C6_popular_restaurant_cuisine
    (by with_unfolding_all decide :
      predictEndpoint dsNaN none reqNaN =
        Except.ok (estimateOk dsNaN none reqNaN))).2.1
    (Or.inr (Or.inl (by decide)))

/-- The string sort produces an ascending list. -/
theorem sortStr_sorted (l : List String) :
    (sortStr l).Sorted (fun a b => a ≤ b) :=
  List.sorted_insertionSort _ l

/-- The string sort is a permutation of its input. -/
theorem sortStr_perm (l : List String) : List.Perm (sortStr l) l :=
  List.perm_insertionSort _ l

/-- Membership is preserved by the string sort. -/
theorem sortStr_mem {l : List String} {a : String} :
    a ∈ sortStr l ↔ a ∈ l :=
  (sortStr_perm l).mem_iff

/-- Two duplicate-free lists with the same members sort identically. -/
theorem sortStr_eq_of_mem_iff {l1 l2 : List String} (h1 : l1.Nodup)
    (h2 : l2.Nodup) (h : ∀ a, a ∈ l1 ↔ a ∈ l2) : sortStr l1 = sortStr l2 :=
  List.eq_of_perm_of_sorted
    (((sortStr_perm l1).trans ((List.perm_ext_iff_of_nodup h1 h2).mpr h)).trans
      (sortStr_perm l2).symm)
    (sortStr_sorted l1) (sortStr_sorted l2)

/-- Claim C7 fails on the code: location values are returned untrimmed.  The
value " A " survives the whitespace-only test but is emitted with its
surrounding spaces, where the claim's trimming would produce "A". -/
theorem C7_counterexample :
    (get_options dsTrim).map (fun r => r.locations) = Except.ok [" A "] ∧
    (" A " : String) ≠ "A" ∧ pyStrip " A " = "A" := by
  refine ⟨?_, by decide, by decide⟩
  with_unfolding_all decide

/-- Claim C7 amended: the locations returned are exactly the non-missing
location values that are not empty or whitespace-only, kept untrimmed (no
coercion is applied to the stored value), deduplicated and sorted in
ascending case-sensitive order. -/
theorem C7_amended_locations (ds : Dataset) (hrows : ds.rows ≠ [])
    (c : String) (hcol : resolveCol locationAliases ds.cols = some c) :
    ∃ locs, (get_options ds).map (fun r => r.locations) = Except.ok locs ∧
      locs.Sorted (fun a b => a ≤ b) ∧ locs.Nodup ∧
      ∀ s, s ∈ locs ↔
        ((∃ row ∈ ds.rows, row.location = some s) ∧ pyStrip s ≠ "") := by
  refine ⟨sortStr (((ds.rows.filterMap (fun r => r.location)).dedup).filter
    (fun s => pyStrip s ≠ "")), ?_, sortStr_sorted _, ?_, ?_⟩
  · unfold get_options
    rw [if_neg hrows]
    show Except.ok (optLocations ds) = _
    unfold optLocations
    rw [hcol]
  · exact ((sortStr_perm _).nodup_iff).mpr ((List.nodup_dedup _).filter _)
  · intro s
    rw [sortStr_mem]
    simp [List.mem_filter, List.mem_dedup, List.mem_filterMap]

/-- Witness for the amended C7: on `dsTrim` the untrimmed value " A " is a
member of the returned locations. -/
theorem C7_amended_locations_witness :
    ∃ locs, (get_options dsTrim).map (fun r => r.locations) =
        Except.ok locs ∧ " A " ∈ locs := by
  obtain ⟨locs, hok, -, -, hmem⟩ :=
    C7_amended_locations dsTrim (by with_unfolding_all decide) "Location"
      (by decide)
  refine ⟨locs, hok, (hmem " A ").mpr ⟨⟨dsTrim.rows.head (by with_unfolding_all decide), ?_, ?_⟩, ?_⟩⟩
  · with_unfolding_all decide
  · with_unfolding_all decide
  · decide

/-- Membership in the cuisine token multiset is determined by row
membership. -/
theorem mem_allCuisines {rows : List Row} {t : String} :
    t ∈ allCuisines rows ↔
      ∃ r ∈ rows, ∃ c, r.cuisine = some c ∧ t ∈ cuisineTokens c := by
  simp only [allCuisines, List.mem_flatMap, List.mem_filterMap]
  constructor
  · rintro ⟨c, ⟨r, hr, hc⟩, ht⟩
    exact ⟨r, hr, c, hc, ht⟩
  · rintro ⟨r, hr, c, hc, ht⟩
    exact ⟨c, ⟨r, hr, hc⟩, ht⟩

/-- Claim C8: the cuisines list of GET /options depends only on which rows
are present — it is unchanged by reordering rows and by duplicating rows
(any two non-empty datasets with the same columns and the same set of rows
agree). -/
theorem C8_cuisines_invariant (ds1 ds2 : Dataset) (hc : ds1.cols = ds2.cols)
    (h1 : ds1.rows ≠ []) (h2 : ds2.rows ≠ [])
    (hmem : ∀ q : Row, q ∈ ds1.rows ↔ q ∈ ds2.rows) :
    (get_options ds1).map (fun r => r.cuisines) =
      (get_options ds2).map (fun r => r.cuisines) := by
  have hcui : optCuisines ds1 = optCuisines ds2 := by
    unfold optCuisines
    rw [← hc]
    cases hcc : resolveCol cuisineAliases ds1.cols with
    | none => rfl
    | some c =>
      show sortStr (allCuisines ds1.rows).dedup =
        sortStr (allCuisines ds2.rows).dedup
      apply sortStr_eq_of_mem_iff (List.nodup_dedup _) (List.nodup_dedup _)
      intro t
      simp only [List.mem_dedup, mem_allCuisines]
      constructor
      · rintro ⟨r, hr, c', hc', ht⟩
        exact ⟨r, (hmem r).mp hr, c', hc', ht⟩
      · rintro ⟨r, hr, c', hc', ht⟩
        exact ⟨r, (hmem r).mpr hr, c', hc', ht⟩
  unfold get_options
  rw [if_neg h1, if_neg h2]
  show Except.ok (optCuisines ds1) = Except.ok (optCuisines ds2)
  rw [hcui]

/-- Witness for C8: reordering and duplicating the rows of `ds8a` leaves
the cuisines list unchanged. -/
theorem C8_cuisines_invariant_witness :
    (get_options ds8a).map (fun r => r.cuisines) =
      (get_options ds8b).map (fun r => r.cuisines) :=
  C8_cuisines_invariant ds8a ds8b rfl (by with_unfolding_all decide)
    (by with_unfolding_all decide)
    (by intro q; simp [ds8a, ds8b]; tauto)

/-- Every member of a list of naturals is bounded by the folded maximum. -/
theorem le_foldr_max (l : List ℕ) : ∀ a ∈ l, a ≤ l.foldr max 0 := by
  induction l with
  | nil => simp
  | cons x xs ih =>
    intro a ha
    rw [List.foldr_cons]
    rcases List.mem_cons.mp ha with rfl | ha
    · exact le_max_left _ _
    · exact le_trans (ih a ha) (le_max_right _ _)

/-- The folded maximum of a list of naturals is 0 or attained. -/
theorem foldr_max_mem (l : List ℕ) :
    l.foldr max 0 = 0 ∨ l.foldr max 0 ∈ l := by
  induction l with
  | nil => exact Or.inl rfl
  | cons x xs ih =>
    rw [List.foldr_cons]
    rcases le_or_lt x (xs.foldr max 0) with hle | hlt
    · rw [max_eq_right hle]
      rcases ih with h0 | hmem
      · exact Or.inl h0
      · exact Or.inr (List.mem_cons_of_mem _ hmem)
    · rw [max_eq_left hlt.le]
      exact Or.inr (List.mem_cons_self _ _)

/-- No value occurs more often than the maximal count. -/
theorem count_le_maxCount (l : List String) (v : String) (hv : v ∈ l) :
    l.count v ≤ maxCount l :=
  le_foldr_max _ _ (List.mem_map_of_mem _ hv)

/-- On a non-empty list some value attains the maximal count. -/
theorem exists_count_eq_maxCount (l : List String) (hl : l ≠ []) :
    ∃ v ∈ l, l.count v = maxCount l := by
  unfold maxCount
  rcases foldr_max_mem (l.map fun v => l.count v) with h0 | hmem
  · obtain ⟨a, ha⟩ := List.exists_mem_of_ne_nil l hl
    have hpos : 0 < l.count a := List.count_pos_iff.mpr ha
    have hle : l.count a ≤ (l.map fun v => l.count v).foldr max 0 :=
      le_foldr_max _ _ (List.mem_map_of_mem (fun v => l.count v) ha)
    rw [h0] at hle
    omega
  · obtain ⟨v, hv, hveq⟩ := List.mem_map.mp hmem
    exact ⟨v, hv, hveq⟩

/-- Characterisation of the embedded `Series.mode()[0]`: on a non-empty
value list it returns a member of maximal count that is lexicographically
least among the maximal-count values. -/
theorem modeList_spec (l : List String) (hl : l ≠ []) :
    ∃ c, modeList l = some c ∧ c ∈ l ∧ l.count c = maxCount l ∧
      ∀ v ∈ l, l.count v = maxCount l → c ≤ v := by
  unfold modeList
  set L := sortStr (l.dedup.filter fun v => l.count v = maxCount l) with hL
  have hmemL : ∀ x, x ∈ L ↔ (x ∈ l ∧ l.count x = maxCount l) := by
    intro x
    rw [hL, sortStr_mem]
    simp [List.mem_filter, List.mem_dedup]
  have hsor : L.Sorted (fun a b => a ≤ b) := hL ▸ sortStr_sorted _
  obtain ⟨v0, hv0, hv0c⟩ := exists_count_eq_maxCount l hl
  cases hLc : L with
  | nil =>
    have := (hmemL v0).mpr ⟨hv0, hv0c⟩
    rw [hLc] at this
    exact absurd this (List.not_mem_nil _)
  | cons c t =>
    have hcL : c ∈ L := by rw [hLc]; exact List.mem_cons_self c t
    refine ⟨c, rfl, ((hmemL c).mp hcL).1, ((hmemL c).mp hcL).2, ?_⟩
    intro v hv hvc
    have hvL : v ∈ c :: t := by rw [← hLc]; exact (hmemL v).mpr ⟨hv, hvc⟩
    have hs : (c :: t).Sorted (fun a b => a ≤ b) := by rw [← hLc]; exact hsor
    rcases List.mem_cons.mp hvL with rfl | hvt
    · exact le_refl _
    · exact List.rel_of_sorted_cons hs v hvt

/-- Claim C10: on success (with at least one non-missing raw cuisine cell in
the filtered subset) the popular cuisine is a raw, un-split cuisine value of
maximal frequency in the subset, and among the tied maximal-frequency values
it is the lexicographically smallest. -/
theorem C10_popular_cuisine_mode {ds : Dataset} {model : ModelRes}
    {req : EstReq} {res : EstResult}
    (h : predictEndpoint ds model req = Except.ok res)
    (hne : (dfLocation ds req).filterMap (fun r => r.cuisine) ≠ []) :
    ∃ c, res.popular_cuisine = c ∧
      c ∈ (dfLocation ds req).filterMap (fun r => r.cuisine) ∧
      ((dfLocation ds req).filterMap (fun r => r.cuisine)).count c =
        maxCount ((dfLocation ds req).filterMap (fun r => r.cuisine)) ∧
      ∀ v ∈ (dfLocation ds req).filterMap (fun r => r.cuisine),
        ((dfLocation ds req).filterMap (fun r => r.cuisine)).count v =
          maxCount ((dfLocation ds req).filterMap (fun r => r.cuisine)) →
        c ≤ v := by
  obtain ⟨-, -, -, -, -, hres⟩ := predict_ok_inv h
  obtain ⟨c, hm, hc1, hc2, hc3⟩ := modeList_spec _ hne
  refine ⟨c, ?_, hc1, hc2, hc3⟩
  rw [hres, estimateOk_popular_cuisine, hm]
  rfl

/-- Witness for C10: on the worked example the returned popular cuisine is
one of the raw cuisine values of the filtered subset. -/
theorem C10_popular_cuisine_mode_witness :
    ∃ c, (estimateOk ds9 none req9).popular_cuisine = c ∧
      c ∈ (dfLocation ds9 req9).filterMap (fun r => r.cuisine) := by
  obtain ⟨c, h1, h2, -, -⟩ := C10_popular_cuisine_mode
    (by with_unfolding_all decide :
      predictEndpoint ds9 none req9 = Except.ok (estimateOk ds9 none req9))
    (by with_unfolding_all decide)
  exact ⟨c, h1, h2⟩

end MarketApp
